import Mathlib

/-!
Shallow embedding of the instrument-control code of this repository:
the Keithley 2400 helpers `k2400_setup` / `k2400_iv_sweep` (Lesson5.ipynb)
and the Keithley 2614B helpers `k2614B_setup` / `k2614B_iv_sweep`
(the unnamed companion notebook).

Modelling choices:
* Python floats are modelled as exact rationals (`ℚ`).  Every numeric value
  that occurs in the claims is an exact decimal, so no rounding questions
  arise.  `str(x)` on a number is modelled by `pyStr`, an injective textual
  rendering of the rational.
* The pyvisa connection object is modelled by `Conn`: `write` may fail
  (an exception, modelled as `none`) and `query`/`ask` may fail or return a
  response string.  The behaviour may depend on how many writes/queries
  happened before, which is enough to model stubs and mid-sweep failures.
* Each procedure is interpreted as a state-passing function producing the
  trace of successfully performed operations (`St.trace`) together with
  either the returned value or the Python exception that escaped
  (`Except`).  On an exception the internal accumulator list that Python
  would discard is kept alongside the error so that claims about partial
  results can be stated.
* `float(s)` is modelled by `pyFloat`, covering the numeric core of
  Python's float grammar (optional surrounding whitespace, sign, digits
  with an optional decimal point, optional exponent); `inf`/`nan`
  spellings and digit underscores are not modelled, none of the claims
  involves them.
-/

/-- Does the character list `s` start with `p`? (model of list prefix test) -/
def strStartsWith : List Char → List Char → Bool
  | _, [] => true
  | [], _ :: _ => false
  | a :: as, b :: bs => a == b && strStartsWith as bs

/-- Does `n` occur as a contiguous run inside `h`? -/
def containsSeq : List Char → List Char → Bool
  | [], n => n.isEmpty
  | h :: t, n => strStartsWith (h :: t) n || containsSeq t n

/-- `cmd` mentions the text `v` (used to say a command references a value). -/
def refersTo (cmd v : String) : Bool :=
  containsSeq cmd.toList v.toList

/-- Python's `s.split(c)` for a one-character separator, on char lists. -/
def splitOnChar (c : Char) : List Char → List (List Char)
  | [] => [[]]
  | x :: xs =>
    match splitOnChar c xs with
    | [] => [[x]]
    | y :: ys => if x == c then [] :: y :: ys else (x :: y) :: ys

/-- Whitespace stripped by Python's `float`. -/
def isWs (c : Char) : Bool :=
  c == ' ' || c == '\t' || c == '\n' || c == '\r' || c == '\x0b' || c == '\x0c'

/-- Strip leading and trailing whitespace. -/
def trimWs (l : List Char) : List Char :=
  ((l.dropWhile isWs).reverse.dropWhile isWs).reverse

/-- Numeric value of a digit string (caller checks the digits). -/
def natOfDigits (s : List Char) : Nat :=
  s.foldl (fun a c => 10 * a + (c.toNat - 48)) 0

/-- Split an optional leading sign; `true` means negative. -/
def splitSign : List Char → Bool × List Char
  | '+' :: t => (false, t)
  | '-' :: t => (true, t)
  | s => (false, s)

/-- Parse the mantissa `digits[.digits]` as (numerator, power-of-ten of the
denominator). -/
def parseMantissa (m : List Char) : Option (Nat × Nat) :=
  match splitOnChar '.' m with
  | [a] =>
    if a.isEmpty || !a.all Char.isDigit then none else some (natOfDigits a, 0)
  | [a, b] =>
    if (a.isEmpty && b.isEmpty) || !a.all Char.isDigit || !b.all Char.isDigit then none
    else some (natOfDigits a * 10 ^ b.length + natOfDigits b, b.length)
  | _ => none

/-- Parse an exponent `[+-]digits` as (negated?, magnitude). -/
def parseExp (ex : List Char) : Option (Bool × Nat) :=
  match splitSign ex with
  | (eneg, d) =>
    if d.isEmpty || !d.all Char.isDigit then none else some (eneg, natOfDigits d)

/-- Model of Python's `float(s)` on response strings: `none` models the
`ValueError` raised on text that is not convertible to a number. -/
def pyFloat (s : String) : Option ℚ :=
  let t := (trimWs s.toList).map Char.toLower
  match splitSign t with
  | (neg, u) =>
    let val? : Option (Nat × Nat) :=
      match splitOnChar 'e' u with
      | [m] =>
        match parseMantissa m with
        | none => none
        | some (n, k) => some (n, 10 ^ k)
      | [m, ex] =>
        match parseMantissa m, parseExp ex with
        | some (n, k), some (eneg, e) =>
          if eneg then some (n, 10 ^ (k + e)) else some (n * 10 ^ e, 10 ^ k)
        | _, _ => none
      | _ => none
    match val? with
    | none => none
    | some (n, d) => some (if neg then mkRat (-(n : ℤ)) d else mkRat (n : ℤ) d)

/-- Model of Python's `str` on a number (an injective textual rendering of
the exact rational value). -/
def pyStr (q : ℚ) : String :=
  if q.den == 1 then toString q.num else toString q.num ++ "/" ++ toString q.den

/-- One successfully performed operation on the pyvisa connection. -/
inductive Op where
  | write (cmd : String)
  | query (cmd : String) (resp : String)
deriving DecidableEq, Repr

/-- Python exceptions that the embedded code can raise. -/
inductive PyError where
  | comm
  | valueError
  | indexError
deriving DecidableEq, Repr

/-- The pyvisa connection: `write`/`query` get the number of prior
(successful) writes resp. queries, and `none` models a raised
communication/timeout exception. -/
structure Conn where
  write : Nat → String → Option Unit
  query : Nat → String → Option String

/-- Interpreter state: trace of performed operations plus write/query
counters. -/
structure St where
  trace : List Op
  nw : Nat
  nq : Nat
deriving DecidableEq, Repr

/-- Initial state: nothing performed yet. -/
def St.init : St := ⟨[], 0, 0⟩

/-- Perform `conn.write cmd`. -/
def doWrite (conn : Conn) (s : St) (cmd : String) : Option St :=
  match conn.write s.nw cmd with
  | none => none
  | some _ => some ⟨s.trace ++ [Op.write cmd], s.nw + 1, s.nq⟩

/-- Perform `conn.query cmd` (pyvisa's `ask` is the same operation). -/
def doQuery (conn : Conn) (s : St) (cmd : String) : Option (St × String) :=
  match conn.query s.nq cmd with
  | none => none
  | some r => some (⟨s.trace ++ [Op.query cmd r], s.nw, s.nq + 1⟩, r)

/-- Issue a list of write commands in order, stopping at the first failure
(the remaining writes are simply not issued). -/
def runWrites (conn : Conn) : List String → St → St × Except PyError Unit
  | [], s => (s, Except.ok ())
  | c :: cs, s =>
    match doWrite conn s c with
    | none => (s, Except.error PyError.comm)
    | some s' => runWrites conn cs s'

/-- The six write commands of `k2400_setup(func, v_range, i_range, delay)`
(Lesson5.ipynb), in source order. -/
def k2400_setup_cmds (func : String) (v_range i_range delay : ℚ) : List String :=
  ["OUTP OFF",
   ":SOUR:CLE:AUTO OFF",
   ":SOUR:FUNC " ++ func,
   ":SOUR:VOLT:RANG " ++ pyStr v_range,
   ":SOUR:CURR:RANG " ++ pyStr i_range,
   ":SOUR:DEL " ++ pyStr delay]

/-- `k2400_setup` from Lesson5.ipynb: six sequential writes. -/
def k2400_setup (conn : Conn) (func : String) (v_range i_range delay : ℚ) :
    St × Except PyError Unit :=
  runWrites conn (k2400_setup_cmds func v_range i_range delay) St.init

/-- The six write commands of
`k2614B_setup(sfunc, mfunc, v_range, i_range, delay)` (unnamed notebook),
in source order.  The third command hardcodes `MEASURE_DCAMPS`; the
`mfunc` parameter is not used anywhere in the body. -/
def k2614B_setup_cmds (sfunc mfunc : String) (v_range i_range delay : ℚ) :
    List String :=
  ["smua.source.output = smua.OUTPUT_OFF",
   "smua.source.func = smua.OUTPUT_" ++ sfunc,
   "display.smua.measure.func = display.MEASURE_DCAMPS",
   "smua.measure.rangev = " ++ pyStr v_range,
   "smua.measure.rangei = " ++ pyStr i_range,
   "smua.measure.delay = " ++ pyStr delay]

/-- `k2614B_setup` from the unnamed notebook: six sequential writes. -/
def k2614B_setup (conn : Conn) (sfunc mfunc : String) (v_range i_range delay : ℚ) :
    St × Except PyError Unit :=
  runWrites conn (k2614B_setup_cmds sfunc mfunc v_range i_range delay) St.init

/-- k2400 response handling: `data.split(',')`, then
`[float(item) for item in data]` (first non-convertible item raises
`ValueError`), then `data[1]` (raises `IndexError` when there is no second
field). -/
def k2400_parse (data : String) : Except PyError ℚ :=
  let fields := (splitOnChar ',' data.toList).map String.mk
  match fields.mapM pyFloat with
  | none => Except.error PyError.valueError
  | some nums =>
    match nums.get? 1 with
    | some c => Except.ok c
    | none => Except.error PyError.indexError

/-- The `for voltage in v_sweep` loop body of `k2400_iv_sweep`:
write `':SOUR:VOLT '+str(voltage)`, query `':MEAS:CURR?'`, parse, append.
On an exception the accumulator Python would discard is carried in the
error. -/
def k2400_loop (conn : Conn) :
    List ℚ → St → List ℚ → St × Except (PyError × List ℚ) (List ℚ)
  | [], s, acc => (s, Except.ok acc)
  | v :: vs, s, acc =>
    match doWrite conn s (":SOUR:VOLT " ++ pyStr v) with
    | none => (s, Except.error (PyError.comm, acc))
    | some s1 =>
      match doQuery conn s1 ":MEAS:CURR?" with
      | none => (s1, Except.error (PyError.comm, acc))
      | some (s2, data) =>
        match k2400_parse data with
        | Except.error e => (s2, Except.error (e, acc))
        | Except.ok c => k2400_loop conn vs s2 (acc ++ [c])

/-- `k2400_iv_sweep(v_sweep)` from Lesson5.ipynb: the loop over `v_sweep`
followed by `write('OUTP OFF')`, returning `currents`.  Note the source
issues no output-enable command. -/
def k2400_iv_sweep (conn : Conn) (v_sweep : List ℚ) :
    St × Except (PyError × List ℚ) (List ℚ) :=
  match k2400_loop conn v_sweep St.init [] with
  | (s, Except.error e) => (s, Except.error e)
  | (s, Except.ok currents) =>
    match doWrite conn s "OUTP OFF" with
    | none => (s, Except.error (PyError.comm, currents))
    | some s' => (s', Except.ok currents)

/-- k2614B response handling: `float(data)` on the whole response. -/
def k2614B_parse (data : String) : Except PyError ℚ :=
  match pyFloat data with
  | none => Except.error PyError.valueError
  | some q => Except.ok q

/-- The `for voltage in v_sweep` loop body of `k2614B_iv_sweep`:
write `'smua.source.levelv = '+str(voltage)`, ask
`'print(smua.measure.i())'`, `float` the response, append. -/
def k2614B_loop (conn : Conn) :
    List ℚ → St → List ℚ → St × Except (PyError × List ℚ) (List ℚ)
  | [], s, acc => (s, Except.ok acc)
  | v :: vs, s, acc =>
    match doWrite conn s ("smua.source.levelv = " ++ pyStr v) with
    | none => (s, Except.error (PyError.comm, acc))
    | some s1 =>
      match doQuery conn s1 "print(smua.measure.i())" with
      | none => (s1, Except.error (PyError.comm, acc))
      | some (s2, data) =>
        match k2614B_parse data with
        | Except.error e => (s2, Except.error (e, acc))
        | Except.ok c => k2614B_loop conn vs s2 (acc ++ [c])

/-- `k2614B_iv_sweep(v_sweep)` from the unnamed notebook: enable output,
loop over `v_sweep`, disable output, return `currents`. -/
def k2614B_iv_sweep (conn : Conn) (v_sweep : List ℚ) :
    St × Except (PyError × List ℚ) (List ℚ) :=
  match doWrite conn St.init "smua.source.output = smua.OUTPUT_ON" with
  | none => (St.init, Except.error (PyError.comm, []))
  | some s0 =>
    match k2614B_loop conn v_sweep s0 [] with
    | (s, Except.error e) => (s, Except.error e)
    | (s, Except.ok currents) =>
      match doWrite conn s "smua.source.output = smua.OUTPUT_OFF" with
      | none => (s, Except.error (PyError.comm, currents))
      | some s' => (s', Except.ok currents)

/-- A connection whose writes always succeed and whose queries always
return the fixed response `resp`. -/
def constConn (resp : String) : Conn :=
  ⟨fun _ _ => some (), fun _ _ => some resp⟩

/-- A connection stub whose writes always succeed and whose `k`-th query
returns the `k`-th entry of `resps` (and `""` past the end). -/
def scriptConn (resps : List String) : Conn :=
  ⟨fun _ _ => some (), fun k _ => some (resps.getD k "")⟩

/-- Projection: the returned result of a sweep run, if it succeeded. -/
def okResult (r : St × Except (PyError × List ℚ) (List ℚ)) : Option (List ℚ) :=
  match r.2 with
  | Except.ok cs => some cs
  | Except.error _ => none

/-- Projection: the escaped exception (with the discarded accumulator) of a
sweep run, if it failed. -/
def errResult (r : St × Except (PyError × List ℚ) (List ℚ)) :
    Option (PyError × List ℚ) :=
  match r.2 with
  | Except.ok _ => none
  | Except.error e => some e

/-- The operations one k2400 sweep step performs, per voltage/response pair:
one source-level write immediately followed by one measurement query. -/
def k2400_stepOps : List ℚ → List String → List Op
  | v :: vs, r :: rs =>
    Op.write (":SOUR:VOLT " ++ pyStr v) :: Op.query ":MEAS:CURR?" r ::
      k2400_stepOps vs rs
  | _, _ => []

/-- The operations one k2614B sweep step performs, per voltage/response
pair: one source-level write immediately followed by one measurement
query. -/
def k2614B_stepOps : List ℚ → List String → List Op
  | v :: vs, r :: rs =>
    Op.write ("smua.source.levelv = " ++ pyStr v) ::
      Op.query "print(smua.measure.i())" r :: k2614B_stepOps vs rs
  | _, _ => []

instance {ε α : Type} [DecidableEq ε] [DecidableEq α] : DecidableEq (Except ε α) :=
  fun a b =>
    match a, b with
    | Except.error e, Except.error f =>
      if h : e = f then Decidable.isTrue (congrArg Except.error h)
      else Decidable.isFalse (fun hh => h (by injection hh))
    | Except.error _, Except.ok _ => Decidable.isFalse (fun hh => Except.noConfusion hh)
    | Except.ok _, Except.error _ => Decidable.isFalse (fun hh => Except.noConfusion hh)
    | Except.ok a', Except.ok b' =>
      if h : a' = b' then Decidable.isTrue (congrArg Except.ok h)
      else Decidable.isFalse (fun hh => h (by injection hh))

/-! ### Helper lemmas -/

theorem strApp_toList (a b : String) : (a ++ b).toList = a.toList ++ b.toList := by
  cases a; cases b; rfl

theorem startsWith_of_append :
    ∀ (x t y : List Char), x ++ t = y → strStartsWith y x = true := by
  intro x
  induction x with
  | nil =>
    intro t y _
    cases y <;> simp [strStartsWith]
  | cons a as ih =>
    intro t y h
    cases y with
    | nil => simp at h
    | cons b bs =>
      injection h with h1 h2
      subst h1
      simp [strStartsWith, ih t bs h2]

theorem containsSeq_suffix :
    ∀ (p s : List Char), containsSeq (p ++ s) s = true := by
  intro p
  induction p with
  | nil =>
    intro s
    cases s with
    | nil => rfl
    | cons a t =>
      simp only [List.nil_append, containsSeq]
      have : strStartsWith (a :: t) (a :: t) = true :=
        startsWith_of_append (a :: t) [] (a :: t) (by simp)
      simp [this]
  | cons a p ih =>
    intro s
    cases s with
    | nil => simp [containsSeq, strStartsWith]
    | cons b t => simp [containsSeq, ih (b :: t)]

theorem refersTo_append (a b : String) : refersTo (a ++ b) b = true := by
  unfold refersTo
  rw [strApp_toList]
  exact containsSeq_suffix a.toList b.toList

theorem volt_cmd_ne_off (t : String) : (":SOUR:VOLT " ++ t) ≠ "OUTP OFF" := by
  intro h
  have h2 := congrArg String.toList h
  rw [strApp_toList] at h2
  exact absurd (startsWith_of_append _ _ _ h2) (by decide)

theorem levelv_cmd_ne_off (t : String) :
    ("smua.source.levelv = " ++ t) ≠ "smua.source.output = smua.OUTPUT_OFF" := by
  intro h
  have h2 := congrArg String.toList h
  rw [strApp_toList] at h2
  exact absurd (startsWith_of_append _ _ _ h2) (by decide)

theorem doWrite_none {conn : Conn} {s : St} {cmd : String}
    (h : doWrite conn s cmd = none) : conn.write s.nw cmd = none := by
  unfold doWrite at h
  split at h
  · assumption
  · exact absurd h (by simp)

theorem doWrite_some {conn : Conn} {s : St} {cmd : String} {s1 : St}
    (h : doWrite conn s cmd = some s1) :
    s1 = ⟨s.trace ++ [Op.write cmd], s.nw + 1, s.nq⟩ := by
  unfold doWrite at h
  split at h
  · exact absurd h (by simp)
  · injection h with h2
    exact h2.symm

theorem doQuery_some {conn : Conn} {s : St} {cmd : String} {s2 : St} {r : String}
    (h : doQuery conn s cmd = some (s2, r)) :
    s2 = ⟨s.trace ++ [Op.query cmd r], s.nw, s.nq + 1⟩ ∧
      conn.query s.nq cmd = some r := by
  unfold doQuery at h
  split at h
  · exact absurd h (by simp)
  · next heq =>
    injection h with h2
    rw [Prod.mk.injEq] at h2
    obtain ⟨hs, hr⟩ := h2
    subst hr
    exact ⟨hs.symm, heq⟩

theorem runWrites_ok (conn : Conn) (h : ∀ n c, conn.write n c = some ()) :
    ∀ (cs : List String) (s : St),
      runWrites conn cs s =
        (⟨s.trace ++ cs.map Op.write, s.nw + cs.length, s.nq⟩, Except.ok ()) := by
  intro cs
  induction cs with
  | nil =>
    intro s
    simp [runWrites]
  | cons c cs ih =>
    intro s
    simp only [runWrites, doWrite, h]
    rw [ih]
    simp only [List.map_cons, List.length_cons, Prod.mk.injEq, St.mk.injEq,
      List.append_assoc, List.singleton_append, and_true, true_and]
    omega

theorem k2400_loop_ok (conn : Conn) :
    ∀ (vs : List ℚ) (s : St) (acc : List ℚ) (s' : St) (cs : List ℚ),
      k2400_loop conn vs s acc = (s', Except.ok cs) →
      ∃ rs ps, rs.length = vs.length ∧
        List.Forall₂ (fun r c => k2400_parse r = Except.ok c) rs ps ∧
        cs = acc ++ ps ∧
        s'.trace = s.trace ++ k2400_stepOps vs rs ∧
        s'.nw = s.nw + vs.length ∧ s'.nq = s.nq + vs.length := by
  intro vs
  induction vs with
  | nil =>
    intro s acc s' cs h
    simp only [k2400_loop, Prod.mk.injEq] at h
    obtain ⟨hs, hcs⟩ := h
    injection hcs with hcs
    subst hs
    subst hcs
    exact ⟨[], [], rfl, List.Forall₂.nil, by simp, by simp [k2400_stepOps], by simp, by simp⟩
  | cons v vs ih =>
    intro s acc s' cs h
    simp only [k2400_loop] at h
    rcases hw : doWrite conn s (":SOUR:VOLT " ++ pyStr v) with _ | s1
    · rw [hw] at h
      simp at h
    · rw [hw] at h
      dsimp only at h
      rcases hq : doQuery conn s1 ":MEAS:CURR?" with _ | ⟨s2, data⟩
      · rw [hq] at h
        simp at h
      · rw [hq] at h
        dsimp only at h
        rcases hp : k2400_parse data with e | c
        · rw [hp] at h
          simp at h
        · rw [hp] at h
          dsimp only at h
          obtain ⟨rs, ps, hlen, hfa, hcs, htr, hnw, hnq⟩ := ih s2 (acc ++ [c]) s' cs h
          have hws := doWrite_some hw
          obtain ⟨hqs, _⟩ := doQuery_some hq
          subst hws
          subst hqs
          refine ⟨data :: rs, c :: ps, by simp [hlen], List.Forall₂.cons hp hfa,
            by simp [hcs], ?_, ?_, ?_⟩
          · rw [htr]
            simp [k2400_stepOps]
          · simp only [List.length_cons]
            simp at hnw
            omega
          · simp only [List.length_cons]
            simp at hnq
            omega

theorem k2614B_loop_ok (conn : Conn) :
    ∀ (vs : List ℚ) (s : St) (acc : List ℚ) (s' : St) (cs : List ℚ),
      k2614B_loop conn vs s acc = (s', Except.ok cs) →
      ∃ rs ps, rs.length = vs.length ∧
        List.Forall₂ (fun r c => k2614B_parse r = Except.ok c) rs ps ∧
        cs = acc ++ ps ∧
        s'.trace = s.trace ++ k2614B_stepOps vs rs ∧
        s'.nw = s.nw + vs.length ∧ s'.nq = s.nq + vs.length := by
  intro vs
  induction vs with
  | nil =>
    intro s acc s' cs h
    simp only [k2614B_loop, Prod.mk.injEq] at h
    obtain ⟨hs, hcs⟩ := h
    injection hcs with hcs
    subst hs
    subst hcs
    exact ⟨[], [], rfl, List.Forall₂.nil, by simp, by simp [k2614B_stepOps], by simp, by simp⟩
  | cons v vs ih =>
    intro s acc s' cs h
    simp only [k2614B_loop] at h
    rcases hw : doWrite conn s ("smua.source.levelv = " ++ pyStr v) with _ | s1
    · rw [hw] at h
      simp at h
    · rw [hw] at h
      dsimp only at h
      rcases hq : doQuery conn s1 "print(smua.measure.i())" with _ | ⟨s2, data⟩
      · rw [hq] at h
        simp at h
      · rw [hq] at h
        dsimp only at h
        rcases hp : k2614B_parse data with e | c
        · rw [hp] at h
          simp at h
        · rw [hp] at h
          dsimp only at h
          obtain ⟨rs, ps, hlen, hfa, hcs, htr, hnw, hnq⟩ := ih s2 (acc ++ [c]) s' cs h
          have hws := doWrite_some hw
          obtain ⟨hqs, _⟩ := doQuery_some hq
          subst hws
          subst hqs
          refine ⟨data :: rs, c :: ps, by simp [hlen], List.Forall₂.cons hp hfa,
            by simp [hcs], ?_, ?_, ?_⟩
          · rw [htr]
            simp [k2614B_stepOps]
          · simp only [List.length_cons]
            simp at hnw
            omega
          · simp only [List.length_cons]
            simp at hnq
            omega

theorem k2400_sweep_ok {conn : Conn} {vs : List ℚ} {s' : St} {cs : List ℚ}
    (h : k2400_iv_sweep conn vs = (s', Except.ok cs)) :
    ∃ rs, rs.length = vs.length ∧
      List.Forall₂ (fun r c => k2400_parse r = Except.ok c) rs cs ∧
      s'.trace = k2400_stepOps vs rs ++ [Op.write "OUTP OFF"] ∧
      s'.nw = vs.length + 1 ∧ s'.nq = vs.length := by
  unfold k2400_iv_sweep at h
  rcases hl : k2400_loop conn vs St.init [] with ⟨s0, r0⟩
  rw [hl] at h
  rcases r0 with e | currents
  · simp at h
  · dsimp only at h
    rcases hw : doWrite conn s0 "OUTP OFF" with _ | s1
    · rw [hw] at h
      simp at h
    · rw [hw] at h
      dsimp only at h
      obtain ⟨hs, hcs⟩ := Prod.mk.injEq .. ▸ h
      injection hcs with hcs
      subst hs
      subst hcs
      obtain ⟨rs, ps, hlen, hfa, hcs, htr, hnw, hnq⟩ :=
        k2400_loop_ok conn vs St.init [] s0 currents hl
      have hws := doWrite_some hw
      subst hws
      refine ⟨rs, hlen, by simpa [hcs] using hfa, ?_, ?_, ?_⟩
      · simp [htr, St.init]
      · simp [St.init] at hnw
        simp [hnw]
      · simp [St.init] at hnq
        simp [hnq]

theorem k2614B_sweep_ok {conn : Conn} {vs : List ℚ} {s' : St} {cs : List ℚ}
    (h : k2614B_iv_sweep conn vs = (s', Except.ok cs)) :
    ∃ rs, rs.length = vs.length ∧
      List.Forall₂ (fun r c => k2614B_parse r = Except.ok c) rs cs ∧
      s'.trace = Op.write "smua.source.output = smua.OUTPUT_ON" ::
        (k2614B_stepOps vs rs ++ [Op.write "smua.source.output = smua.OUTPUT_OFF"]) ∧
      s'.nw = vs.length + 2 ∧ s'.nq = vs.length := by
  unfold k2614B_iv_sweep at h
  rcases hon : doWrite conn St.init "smua.source.output = smua.OUTPUT_ON" with _ | s0
  · rw [hon] at h
    simp at h
  · rw [hon] at h
    dsimp only at h
    rcases hl : k2614B_loop conn vs s0 [] with ⟨sl, rl⟩
    rw [hl] at h
    rcases rl with e | currents
    · simp at h
    · dsimp only at h
      rcases hw : doWrite conn sl "smua.source.output = smua.OUTPUT_OFF" with _ | s1
      · rw [hw] at h
        simp at h
      · rw [hw] at h
        dsimp only at h
        obtain ⟨hs, hcs⟩ := Prod.mk.injEq .. ▸ h
        injection hcs with hcs
        subst hs
        subst hcs
        obtain ⟨rs, ps, hlen, hfa, hcs, htr, hnw, hnq⟩ :=
          k2614B_loop_ok conn vs s0 [] sl currents hl
        have hon2 := doWrite_some hon
        subst hon2
        have hws := doWrite_some hw
        subst hws
        refine ⟨rs, hlen, by simpa [hcs] using hfa, ?_, ?_, ?_⟩
        · simp [htr, St.init]
        · simp [St.init] at hnw
          simp [hnw]
          omega
        · simp [St.init] at hnq
          simp [hnq]

theorem k2400_loop_mem (conn : Conn) :
    ∀ (vs : List ℚ) (s : St) (acc : List ℚ) (op : Op),
      op ∈ (k2400_loop conn vs s acc).1.trace →
      op ∈ s.trace ∨ (∃ v, op = Op.write (":SOUR:VOLT " ++ pyStr v)) ∨
        ∃ r, op = Op.query ":MEAS:CURR?" r := by
  intro vs
  induction vs with
  | nil =>
    intro s acc op hop
    simp only [k2400_loop] at hop
    exact Or.inl hop
  | cons v vs ih =>
    intro s acc op hop
    simp only [k2400_loop] at hop
    rcases hw : doWrite conn s (":SOUR:VOLT " ++ pyStr v) with _ | s1
    · rw [hw] at hop
      dsimp only at hop
      exact Or.inl hop
    · rw [hw] at hop
      dsimp only at hop
      rcases hq : doQuery conn s1 ":MEAS:CURR?" with _ | ⟨s2, data⟩
      · rw [hq] at hop
        dsimp only at hop
        rw [doWrite_some hw] at hop
        simp at hop
        rcases hop with hop | hop
        · exact Or.inl hop
        · exact Or.inr (Or.inl ⟨v, hop⟩)
      · rw [hq] at hop
        dsimp only at hop
        rcases hp : k2400_parse data with e | c
        · rw [hp] at hop
          dsimp only at hop
          rw [(doQuery_some hq).1, doWrite_some hw] at hop
          simp at hop
          rcases hop with hop | hop | hop
          · exact Or.inl hop
          · exact Or.inr (Or.inl ⟨v, hop⟩)
          · exact Or.inr (Or.inr ⟨data, hop⟩)
        · rw [hp] at hop
          dsimp only at hop
          rcases ih s2 (acc ++ [c]) op hop with hop | hop | hop
          · rw [(doQuery_some hq).1, doWrite_some hw] at hop
            simp at hop
            rcases hop with hop | hop | hop
            · exact Or.inl hop
            · exact Or.inr (Or.inl ⟨v, hop⟩)
            · exact Or.inr (Or.inr ⟨data, hop⟩)
          · exact Or.inr (Or.inl hop)
          · exact Or.inr (Or.inr hop)

theorem k2614B_loop_mem (conn : Conn) :
    ∀ (vs : List ℚ) (s : St) (acc : List ℚ) (op : Op),
      op ∈ (k2614B_loop conn vs s acc).1.trace →
      op ∈ s.trace ∨ (∃ v, op = Op.write ("smua.source.levelv = " ++ pyStr v)) ∨
        ∃ r, op = Op.query "print(smua.measure.i())" r := by
  intro vs
  induction vs with
  | nil =>
    intro s acc op hop
    simp only [k2614B_loop] at hop
    exact Or.inl hop
  | cons v vs ih =>
    intro s acc op hop
    simp only [k2614B_loop] at hop
    rcases hw : doWrite conn s ("smua.source.levelv = " ++ pyStr v) with _ | s1
    · rw [hw] at hop
      dsimp only at hop
      exact Or.inl hop
    · rw [hw] at hop
      dsimp only at hop
      rcases hq : doQuery conn s1 "print(smua.measure.i())" with _ | ⟨s2, data⟩
      · rw [hq] at hop
        dsimp only at hop
        rw [doWrite_some hw] at hop
        simp at hop
        rcases hop with hop | hop
        · exact Or.inl hop
        · exact Or.inr (Or.inl ⟨v, hop⟩)
      · rw [hq] at hop
        dsimp only at hop
        rcases hp : k2614B_parse data with e | c
        · rw [hp] at hop
          dsimp only at hop
          rw [(doQuery_some hq).1, doWrite_some hw] at hop
          simp at hop
          rcases hop with hop | hop | hop
          · exact Or.inl hop
          · exact Or.inr (Or.inl ⟨v, hop⟩)
          · exact Or.inr (Or.inr ⟨data, hop⟩)
        · rw [hp] at hop
          dsimp only at hop
          rcases ih s2 (acc ++ [c]) op hop with hop | hop | hop
          · rw [(doQuery_some hq).1, doWrite_some hw] at hop
            simp at hop
            rcases hop with hop | hop | hop
            · exact Or.inl hop
            · exact Or.inr (Or.inl ⟨v, hop⟩)
            · exact Or.inr (Or.inr ⟨data, hop⟩)
          · exact Or.inr (Or.inl hop)
          · exact Or.inr (Or.inr hop)

theorem k2400_sweep_err {conn : Conn} {vs : List ℚ} {s' : St}
    {e : PyError × List ℚ} (h : k2400_iv_sweep conn vs = (s', Except.error e)) :
    ∀ op ∈ s'.trace, (∃ v, op = Op.write (":SOUR:VOLT " ++ pyStr v)) ∨
      ∃ r, op = Op.query ":MEAS:CURR?" r := by
  unfold k2400_iv_sweep at h
  rcases hl : k2400_loop conn vs St.init [] with ⟨s0, r0⟩
  rw [hl] at h
  rcases r0 with e0 | currents
  · dsimp only at h
    obtain ⟨hs, _⟩ := Prod.mk.injEq .. ▸ h
    subst hs
    intro op hop
    have hm := k2400_loop_mem conn vs St.init [] op (by rw [hl]; exact hop)
    rcases hm with hm | hm | hm
    · simp [St.init] at hm
    · exact Or.inl hm
    · exact Or.inr hm
  · dsimp only at h
    rcases hw : doWrite conn s0 "OUTP OFF" with _ | s1
    · rw [hw] at h
      dsimp only at h
      obtain ⟨hs, _⟩ := Prod.mk.injEq .. ▸ h
      subst hs
      intro op hop
      have hm := k2400_loop_mem conn vs St.init [] op (by rw [hl]; exact hop)
      rcases hm with hm | hm | hm
      · simp [St.init] at hm
      · exact Or.inl hm
      · exact Or.inr hm
    · rw [hw] at h
      simp at h

theorem k2614B_sweep_err {conn : Conn} {vs : List ℚ} {s' : St}
    {e : PyError × List ℚ} (h : k2614B_iv_sweep conn vs = (s', Except.error e)) :
    ∀ op ∈ s'.trace, op = Op.write "smua.source.output = smua.OUTPUT_ON" ∨
      (∃ v, op = Op.write ("smua.source.levelv = " ++ pyStr v)) ∨
      ∃ r, op = Op.query "print(smua.measure.i())" r := by
  unfold k2614B_iv_sweep at h
  rcases hon : doWrite conn St.init "smua.source.output = smua.OUTPUT_ON" with _ | s0
  · rw [hon] at h
    dsimp only at h
    obtain ⟨hs, _⟩ := Prod.mk.injEq .. ▸ h
    subst hs
    intro op hop
    simp [St.init] at hop
  · rw [hon] at h
    dsimp only at h
    have hon2 := doWrite_some hon
    subst hon2
    rcases hl : k2614B_loop conn vs
        ⟨St.init.trace ++ [Op.write "smua.source.output = smua.OUTPUT_ON"],
          St.init.nw + 1, St.init.nq⟩ [] with ⟨sl, rl⟩
    rw [hl] at h
    rcases rl with e0 | currents
    · dsimp only at h
      obtain ⟨hs, _⟩ := Prod.mk.injEq .. ▸ h
      subst hs
      intro op hop
      have hm := k2614B_loop_mem conn vs _ [] op (by rw [hl]; exact hop)
      rcases hm with hm | hm | hm
      · simp [St.init] at hm
        exact Or.inl hm
      · exact Or.inr (Or.inl hm)
      · exact Or.inr (Or.inr hm)
    · dsimp only at h
      rcases hw : doWrite conn sl "smua.source.output = smua.OUTPUT_OFF" with _ | s1
      · rw [hw] at h
        dsimp only at h
        obtain ⟨hs, _⟩ := Prod.mk.injEq .. ▸ h
        subst hs
        intro op hop
        have hm := k2614B_loop_mem conn vs _ [] op (by rw [hl]; exact hop)
        rcases hm with hm | hm | hm
        · simp [St.init] at hm
          exact Or.inl hm
        · exact Or.inr (Or.inl hm)
        · exact Or.inr (Or.inr hm)
      · rw [hw] at h
        simp at h

theorem forall2_getD {R : String → ℚ → Prop} :
    ∀ (rs : List String) (ps : List ℚ), List.Forall₂ R rs ps →
      ∀ j, j < rs.length → R (rs.getD j "") (ps.getD j 0) := by
  intro rs
  induction rs with
  | nil =>
    intro ps h j hj
    simp at hj
  | cons r rs ih =>
    intro ps h j hj
    cases h with
    | cons hr htail =>
      cases j with
      | zero => simpa using hr
      | succ j =>
        simp only [List.getD_cons_succ]
        exact ih _ htail j (by simpa using hj)

theorem k2400_loop_script (resps : List String) :
    ∀ (vs : List ℚ) (i : Nat) (s : St) (acc : List ℚ),
      i < vs.length →
      (∀ j, j < i → ∃ c, k2400_parse (resps.getD (s.nq + j) "") = Except.ok c) →
      ∀ e, k2400_parse (resps.getD (s.nq + i) "") = Except.error e →
      ∃ s' ps,
        k2400_loop (scriptConn resps) vs s acc = (s', Except.error (e, acc ++ ps)) ∧
        ps.length = i ∧
        ∀ j, j < i → k2400_parse (resps.getD (s.nq + j) "") = Except.ok (ps.getD j 0) := by
  intro vs
  induction vs with
  | nil =>
    intro i s acc hi
    simp at hi
  | cons v vs ih =>
    intro i s acc hi hok e hbad
    simp only [k2400_loop, doWrite, doQuery, scriptConn]
    cases i with
    | zero =>
      rw [Nat.add_zero] at hbad
      rw [hbad]
      dsimp only
      refine ⟨⟨s.trace ++ [Op.write (":SOUR:VOLT " ++ pyStr v),
          Op.query ":MEAS:CURR?" (resps.getD s.nq "")], s.nw + 1, s.nq + 1⟩, [], ?_, rfl, ?_⟩
      · simp
      · intro j hj
        exact absurd hj (Nat.not_lt_zero j)
    | succ k =>
      obtain ⟨c0, hc0⟩ := hok 0 (Nat.succ_pos k)
      rw [Nat.add_zero] at hc0
      rw [hc0]
      dsimp only
      have hi2 : k < vs.length := by simpa using hi
      have hok2 : ∀ j, j < k →
          ∃ c, k2400_parse (resps.getD (s.nq + 1 + j) "") = Except.ok c := by
        intro j hj
        have hx := hok (j + 1) (by omega)
        rwa [show s.nq + (j + 1) = s.nq + 1 + j by omega] at hx
      have hbad2 : k2400_parse (resps.getD (s.nq + 1 + k) "") = Except.error e := by
        rwa [show s.nq + (k + 1) = s.nq + 1 + k by omega] at hbad
      obtain ⟨s', ps', heq, hlen, hpt⟩ :=
        ih k ⟨(s.trace ++ [Op.write (":SOUR:VOLT " ++ pyStr v)]) ++
            [Op.query ":MEAS:CURR?" (resps.getD s.nq "")], s.nw + 1, s.nq + 1⟩
          (acc ++ [c0]) hi2 hok2 e hbad2
      refine ⟨s', c0 :: ps', ?_, by simp [hlen], ?_⟩
      · have hl2 : acc ++ c0 :: ps' = (acc ++ [c0]) ++ ps' := by simp
        rw [hl2]
        exact heq
      · intro j hj
        cases j with
        | zero => simpa using hc0
        | succ j =>
          have hx := hpt j (by omega)
          dsimp only at hx
          simp only [List.getD_cons_succ]
          rwa [show s.nq + 1 + j = s.nq + (j + 1) by omega] at hx

theorem k2614B_loop_script (resps : List String) :
    ∀ (vs : List ℚ) (i : Nat) (s : St) (acc : List ℚ),
      i < vs.length →
      (∀ j, j < i → ∃ c, k2614B_parse (resps.getD (s.nq + j) "") = Except.ok c) →
      ∀ e, k2614B_parse (resps.getD (s.nq + i) "") = Except.error e →
      ∃ s' ps,
        k2614B_loop (scriptConn resps) vs s acc = (s', Except.error (e, acc ++ ps)) ∧
        ps.length = i ∧
        ∀ j, j < i → k2614B_parse (resps.getD (s.nq + j) "") = Except.ok (ps.getD j 0) := by
  intro vs
  induction vs with
  | nil =>
    intro i s acc hi
    simp at hi
  | cons v vs ih =>
    intro i s acc hi hok e hbad
    simp only [k2614B_loop, doWrite, doQuery, scriptConn]
    cases i with
    | zero =>
      rw [Nat.add_zero] at hbad
      rw [hbad]
      dsimp only
      refine ⟨⟨s.trace ++ [Op.write ("smua.source.levelv = " ++ pyStr v),
          Op.query "print(smua.measure.i())" (resps.getD s.nq "")], s.nw + 1, s.nq + 1⟩, [], ?_, rfl, ?_⟩
      · simp
      · intro j hj
        exact absurd hj (Nat.not_lt_zero j)
    | succ k =>
      obtain ⟨c0, hc0⟩ := hok 0 (Nat.succ_pos k)
      rw [Nat.add_zero] at hc0
      rw [hc0]
      dsimp only
      have hi2 : k < vs.length := by simpa using hi
      have hok2 : ∀ j, j < k →
          ∃ c, k2614B_parse (resps.getD (s.nq + 1 + j) "") = Except.ok c := by
        intro j hj
        have hx := hok (j + 1) (by omega)
        rwa [show s.nq + (j + 1) = s.nq + 1 + j by omega] at hx
      have hbad2 : k2614B_parse (resps.getD (s.nq + 1 + k) "") = Except.error e := by
        rwa [show s.nq + (k + 1) = s.nq + 1 + k by omega] at hbad
      obtain ⟨s', ps', heq, hlen, hpt⟩ :=
        ih k ⟨(s.trace ++ [Op.write ("smua.source.levelv = " ++ pyStr v)]) ++
            [Op.query "print(smua.measure.i())" (resps.getD s.nq "")], s.nw + 1, s.nq + 1⟩
          (acc ++ [c0]) hi2 hok2 e hbad2
      refine ⟨s', c0 :: ps', ?_, by simp [hlen], ?_⟩
      · have hl2 : acc ++ c0 :: ps' = (acc ++ [c0]) ++ ps' := by simp
        rw [hl2]
        exact heq
      · intro j hj
        cases j with
        | zero => simpa using hc0
        | succ j =>
          have hx := hpt j (by omega)
          dsimp only at hx
          simp only [List.getD_cons_succ]
          rwa [show s.nq + 1 + j = s.nq + (j + 1) by omega] at hx

theorem k2400_sweep_script (resps : List String) (vs : List ℚ) (i : Nat) (e : PyError)
    (hi : i < vs.length)
    (hok : ∀ j, j < i → ∃ c, k2400_parse (resps.getD j "") = Except.ok c)
    (hbad : k2400_parse (resps.getD i "") = Except.error e) :
    ∃ ps, errResult (k2400_iv_sweep (scriptConn resps) vs) = some (e, ps) ∧
      ps.length = i ∧
      ∀ j, j < i → k2400_parse (resps.getD j "") = Except.ok (ps.getD j 0) := by
  have hok0 : ∀ j, j < i →
      ∃ c, k2400_parse (resps.getD (St.init.nq + j) "") = Except.ok c := by
    intro j hj
    simpa [St.init] using hok j hj
  have hbad0 : k2400_parse (resps.getD (St.init.nq + i) "") = Except.error e := by
    simpa [St.init] using hbad
  obtain ⟨s', ps, heq, hlen, hpt⟩ :=
    k2400_loop_script resps vs i St.init [] hi hok0 e hbad0
  refine ⟨ps, ?_, hlen, ?_⟩
  · unfold k2400_iv_sweep
    rw [heq]
    simp [errResult]
  · intro j hj
    simpa [St.init] using hpt j hj

theorem k2614B_sweep_script (resps : List String) (vs : List ℚ) (i : Nat) (e : PyError)
    (hi : i < vs.length)
    (hok : ∀ j, j < i → ∃ c, k2614B_parse (resps.getD j "") = Except.ok c)
    (hbad : k2614B_parse (resps.getD i "") = Except.error e) :
    ∃ ps, errResult (k2614B_iv_sweep (scriptConn resps) vs) = some (e, ps) ∧
      ps.length = i ∧
      ∀ j, j < i → k2614B_parse (resps.getD j "") = Except.ok (ps.getD j 0) := by
  have hok0 : ∀ j, j < i →
      ∃ c, k2614B_parse (resps.getD
        ((⟨[Op.write "smua.source.output = smua.OUTPUT_ON"], 1, 0⟩ : St).nq + j) "")
        = Except.ok c := by
    intro j hj
    simpa using hok j hj
  have hbad0 : k2614B_parse (resps.getD
      ((⟨[Op.write "smua.source.output = smua.OUTPUT_ON"], 1, 0⟩ : St).nq + i) "")
      = Except.error e := by
    simpa using hbad
  obtain ⟨s', ps, heq, hlen, hpt⟩ :=
    k2614B_loop_script resps vs i
      ⟨[Op.write "smua.source.output = smua.OUTPUT_ON"], 1, 0⟩ [] hi hok0 e hbad0
  refine ⟨ps, ?_, hlen, ?_⟩
  · unfold k2614B_iv_sweep
    have hON : doWrite (scriptConn resps) St.init "smua.source.output = smua.OUTPUT_ON"
        = some ⟨[Op.write "smua.source.output = smua.OUTPUT_ON"], 1, 0⟩ := rfl
    rw [hON]
    dsimp only
    rw [heq]
    simp [errResult]
  · intro j hj
    simpa using hpt j hj

theorem okResult_some {r : St × Except (PyError × List ℚ) (List ℚ)} {cs : List ℚ}
    (h : okResult r = some cs) : r.2 = Except.ok cs := by
  unfold okResult at h
  rcases hr : r.2 with e | cs'
  · rw [hr] at h
    simp at h
  · rw [hr] at h
    dsimp only at h
    injection h with h
    rw [h]

theorem errResult_some {r : St × Except (PyError × List ℚ) (List ℚ)}
    {e : PyError × List ℚ} (h : errResult r = some e) : r.2 = Except.error e := by
  unfold errResult at h
  rcases hr : r.2 with e' | cs
  · rw [hr] at h
    dsimp only at h
    injection h with h
    rw [h]
  · rw [hr] at h
    simp at h

theorem volt_cmd_ne_on (t : String) : (":SOUR:VOLT " ++ t) ≠ "OUTP ON" := by
  intro h
  have h2 := congrArg String.toList h
  rw [strApp_toList] at h2
  exact absurd (startsWith_of_append _ _ _ h2) (by decide)

theorem k2400_stepOps_mem :
    ∀ (vs : List ℚ) (rs : List String) (op : Op), op ∈ k2400_stepOps vs rs →
      (∃ v, op = Op.write (":SOUR:VOLT " ++ pyStr v)) ∨
        ∃ r, op = Op.query ":MEAS:CURR?" r := by
  intro vs
  induction vs with
  | nil =>
    intro rs op hop
    simp [k2400_stepOps] at hop
  | cons v vs ih =>
    intro rs op hop
    cases rs with
    | nil => simp [k2400_stepOps] at hop
    | cons r rs =>
      simp only [k2400_stepOps, List.mem_cons] at hop
      rcases hop with h | h | h
      · exact Or.inl ⟨v, h⟩
      · exact Or.inr ⟨r, h⟩
      · exact ih rs op h

theorem k2614B_stepOps_mem :
    ∀ (vs : List ℚ) (rs : List String) (op : Op), op ∈ k2614B_stepOps vs rs →
      (∃ v, op = Op.write ("smua.source.levelv = " ++ pyStr v)) ∨
        ∃ r, op = Op.query "print(smua.measure.i())" r := by
  intro vs
  induction vs with
  | nil =>
    intro rs op hop
    simp [k2614B_stepOps] at hop
  | cons v vs ih =>
    intro rs op hop
    cases rs with
    | nil => simp [k2614B_stepOps] at hop
    | cons r rs =>
      simp only [k2614B_stepOps, List.mem_cons] at hop
      rcases hop with h | h | h
      · exact Or.inl ⟨v, h⟩
      · exact Or.inr ⟨r, h⟩
      · exact ih rs op h

theorem mapM_length {α β : Type} (f : α → Option β) :
    ∀ (l : List α) (l2 : List β), l.mapM f = some l2 → l2.length = l.length := by
  intro l
  induction l with
  | nil =>
    intro l2 h
    simp only [List.mapM_nil, pure] at h
    injection h with h
    rw [← h]
    rfl
  | cons a l ih =>
    intro l2 h
    rw [List.mapM_cons] at h
    rcases hfa : f a with _ | b
    · rw [hfa] at h
      simp at h
    · rw [hfa] at h
      rcases hml : l.mapM f with _ | bs
      · rw [hml] at h
        simp at h
      · rw [hml] at h
        have hb := ih bs hml
        simp at h
        rw [← h]
        simp [hb]

/-! ### Claim theorems -/

/-- C1: for every input voltage sequence on which no write or query fails and
every query response parses (i.e. the run returns normally), both
`k2400_iv_sweep` and `k2614B_iv_sweep` return a result sequence whose length
equals the input length. -/
theorem C1_sweep_length (conn1 conn2 : Conn) (vs cs1 cs2 : List ℚ)
    (h1 : okResult (k2400_iv_sweep conn1 vs) = some cs1)
    (h2 : okResult (k2614B_iv_sweep conn2 vs) = some cs2) :
    cs1.length = vs.length ∧ cs2.length = vs.length := by
  have e1 : k2400_iv_sweep conn1 vs = ((k2400_iv_sweep conn1 vs).1, Except.ok cs1) :=
    Prod.ext rfl (okResult_some h1)
  have e2 : k2614B_iv_sweep conn2 vs = ((k2614B_iv_sweep conn2 vs).1, Except.ok cs2) :=
    Prod.ext rfl (okResult_some h2)
  obtain ⟨rs1, hlen1, hfa1, _, _, _⟩ := k2400_sweep_ok e1
  obtain ⟨rs2, hlen2, hfa2, _, _, _⟩ := k2614B_sweep_ok e2
  exact ⟨by rw [← hfa1.length_eq, hlen1], by rw [← hfa2.length_eq, hlen2]⟩

/-- C1 witness: a concrete one-point sweep against a stub connection. -/
theorem C1_sweep_length_witness :
    ([mkRat 1 2] : List ℚ).length = ([(2 : ℚ)] : List ℚ).length ∧
    ([mkRat 1 2] : List ℚ).length = ([(2 : ℚ)] : List ℚ).length :=
  C1_sweep_length (scriptConn ["1.0,0.5"]) (scriptConn ["0.5"]) [2]
    [mkRat 1 2] [mkRat 1 2] (by decide) (by decide)

/-- C2 counterexample: `k2400_iv_sweep` does not enable output first — a
successful one-point run performs only the source-level write, the
measurement query and the final disable; no `OUTP ON` write ever appears in
its operation trace, so the claim "the sweep procedure first enables output
... holds for both k2400_iv_sweep and k2614B_iv_sweep" is false. -/
theorem C2_counterexample_k2400_no_enable :
    okResult (k2400_iv_sweep (constConn "0.0,0.0") [1]) = some [0] ∧
    (k2400_iv_sweep (constConn "0.0,0.0") [1]).1.trace =
      [Op.write (":SOUR:VOLT " ++ pyStr 1), Op.query ":MEAS:CURR?" "0.0,0.0",
        Op.write "OUTP OFF"] ∧
    Op.write "OUTP ON" ∉ (k2400_iv_sweep (constConn "0.0,0.0") [1]).1.trace :=
  ⟨by decide, by decide, by decide⟩

/-- C2 (amended): for every successful run, `k2614B_iv_sweep` first enables
output, then for each set-point in input order performs one source-level
write immediately followed by exactly one measurement query, and after the
loop disables output; `k2400_iv_sweep` performs the same per-set-point
pattern and final disable but issues no output-enable command at all. -/
theorem C2_amended_sweep_structure (conn1 conn2 : Conn) (vs cs1 cs2 : List ℚ)
    (h1 : okResult (k2400_iv_sweep conn1 vs) = some cs1)
    (h2 : okResult (k2614B_iv_sweep conn2 vs) = some cs2) :
    (∃ rs, rs.length = vs.length ∧
      (k2400_iv_sweep conn1 vs).1.trace =
        k2400_stepOps vs rs ++ [Op.write "OUTP OFF"]) ∧
    (∃ rs, rs.length = vs.length ∧
      (k2614B_iv_sweep conn2 vs).1.trace =
        Op.write "smua.source.output = smua.OUTPUT_ON" ::
          (k2614B_stepOps vs rs ++
            [Op.write "smua.source.output = smua.OUTPUT_OFF"])) ∧
    Op.write "OUTP ON" ∉ (k2400_iv_sweep conn1 vs).1.trace := by
  have e1 : k2400_iv_sweep conn1 vs = ((k2400_iv_sweep conn1 vs).1, Except.ok cs1) :=
    Prod.ext rfl (okResult_some h1)
  have e2 : k2614B_iv_sweep conn2 vs = ((k2614B_iv_sweep conn2 vs).1, Except.ok cs2) :=
    Prod.ext rfl (okResult_some h2)
  obtain ⟨rs1, hlen1, _, htr1, _, _⟩ := k2400_sweep_ok e1
  obtain ⟨rs2, hlen2, _, htr2, _, _⟩ := k2614B_sweep_ok e2
  refine ⟨⟨rs1, hlen1, htr1⟩, ⟨rs2, hlen2, htr2⟩, ?_⟩
  intro hmem
  rw [htr1] at hmem
  rcases List.mem_append.mp hmem with hmem | hmem
  · rcases k2400_stepOps_mem vs rs1 _ hmem with ⟨v, hv⟩ | ⟨r, hr⟩
    · injection hv with hv
      exact volt_cmd_ne_on (pyStr v) hv.symm
    · exact Op.noConfusion hr
  · simp at hmem

/-- C2 (amended) witness: concrete one-point runs against stub connections. -/
theorem C2_amended_sweep_structure_witness :
    (∃ rs, rs.length = ([(2 : ℚ)] : List ℚ).length ∧
      (k2400_iv_sweep (scriptConn ["1.0,0.5"]) [2]).1.trace =
        k2400_stepOps [2] rs ++ [Op.write "OUTP OFF"]) ∧
    (∃ rs, rs.length = ([(2 : ℚ)] : List ℚ).length ∧
      (k2614B_iv_sweep (scriptConn ["0.5"]) [2]).1.trace =
        Op.write "smua.source.output = smua.OUTPUT_ON" ::
          (k2614B_stepOps [2] rs ++
            [Op.write "smua.source.output = smua.OUTPUT_OFF"])) ∧
    Op.write "OUTP ON" ∉ (k2400_iv_sweep (scriptConn ["1.0,0.5"]) [2]).1.trace :=
  C2_amended_sweep_structure (scriptConn ["1.0,0.5"]) (scriptConn ["0.5"]) [2]
    [mkRat 1 2] [mkRat 1 2] (by decide) (by decide)

/-- C3 counterexample: the first `k2400_setup` command is the fixed string
"OUTP OFF", which references none of the four parameter values, and no
`k2614B_setup` command references the `mfunc` value "MFUNCX"; so "exactly
six write commands, each referencing the exact parameter values passed in"
is false under any reading of "each". -/
theorem C3_counterexample_setup_refs :
    (k2400_setup_cmds "VOLT" 2 (mkRat 1 10) 0).getD 0 "" = "OUTP OFF" ∧
    refersTo "OUTP OFF" "VOLT" = false ∧
    refersTo "OUTP OFF" (pyStr 2) = false ∧
    refersTo "OUTP OFF" (pyStr (mkRat 1 10)) = false ∧
    refersTo "OUTP OFF" (pyStr 0) = false ∧
    (k2614B_setup_cmds "DCVOLTS" "MFUNCX" 3 (mkRat 1 5) 1).all
      (fun c => !refersTo c "MFUNCX") = true :=
  ⟨rfl, by decide, by decide, by decide, by decide, by decide⟩

/-- C3 (amended): each setup procedure issues exactly six write commands,
the first of which disables output; `k2400_setup`'s `func`, `v_range`,
`i_range`, `delay` are referenced by commands 3-6 respectively, its
commands 1-2 being fixed strings; `k2614B_setup`'s `sfunc`, `v_range`,
`i_range`, `delay` are referenced by commands 2, 4, 5, 6, its commands
1 and 3 being fixed strings (`mfunc` is not referenced).  Under a
connection whose writes all succeed each procedure performs exactly its six
writes in order. -/
theorem C3_amended_setup_six_writes (conn : Conn) (func sfunc mfunc : String)
    (v_range i_range delay : ℚ) (h : ∀ n c, conn.write n c = some ()) :
    (k2400_setup_cmds func v_range i_range delay).length = 6 ∧
    (k2400_setup_cmds func v_range i_range delay).getD 0 "" = "OUTP OFF" ∧
    (k2400_setup_cmds func v_range i_range delay).getD 1 "" = ":SOUR:CLE:AUTO OFF" ∧
    refersTo ((k2400_setup_cmds func v_range i_range delay).getD 2 "") func = true ∧
    refersTo ((k2400_setup_cmds func v_range i_range delay).getD 3 "") (pyStr v_range) = true ∧
    refersTo ((k2400_setup_cmds func v_range i_range delay).getD 4 "") (pyStr i_range) = true ∧
    refersTo ((k2400_setup_cmds func v_range i_range delay).getD 5 "") (pyStr delay) = true ∧
    k2400_setup conn func v_range i_range delay =
      (⟨(k2400_setup_cmds func v_range i_range delay).map Op.write, 6, 0⟩,
        Except.ok ()) ∧
    (k2614B_setup_cmds sfunc mfunc v_range i_range delay).length = 6 ∧
    (k2614B_setup_cmds sfunc mfunc v_range i_range delay).getD 0 "" =
      "smua.source.output = smua.OUTPUT_OFF" ∧
    refersTo ((k2614B_setup_cmds sfunc mfunc v_range i_range delay).getD 1 "") sfunc = true ∧
    (k2614B_setup_cmds sfunc mfunc v_range i_range delay).getD 2 "" =
      "display.smua.measure.func = display.MEASURE_DCAMPS" ∧
    refersTo ((k2614B_setup_cmds sfunc mfunc v_range i_range delay).getD 3 "") (pyStr v_range) = true ∧
    refersTo ((k2614B_setup_cmds sfunc mfunc v_range i_range delay).getD 4 "") (pyStr i_range) = true ∧
    refersTo ((k2614B_setup_cmds sfunc mfunc v_range i_range delay).getD 5 "") (pyStr delay) = true ∧
    k2614B_setup conn sfunc mfunc v_range i_range delay =
      (⟨(k2614B_setup_cmds sfunc mfunc v_range i_range delay).map Op.write, 6, 0⟩,
        Except.ok ()) := by
  refine ⟨rfl, rfl, rfl,
    refersTo_append ":SOUR:FUNC " func,
    refersTo_append ":SOUR:VOLT:RANG " (pyStr v_range),
    refersTo_append ":SOUR:CURR:RANG " (pyStr i_range),
    refersTo_append ":SOUR:DEL " (pyStr delay), ?_,
    rfl, rfl,
    refersTo_append "smua.source.func = smua.OUTPUT_" sfunc, rfl,
    refersTo_append "smua.measure.rangev = " (pyStr v_range),
    refersTo_append "smua.measure.rangei = " (pyStr i_range),
    refersTo_append "smua.measure.delay = " (pyStr delay), ?_⟩
  · unfold k2400_setup
    rw [runWrites_ok conn h]
    rfl
  · unfold k2614B_setup
    rw [runWrites_ok conn h]
    rfl

/-- C3 (amended) witness: concrete setup runs against a stub connection. -/
theorem C3_amended_setup_six_writes_witness :
    (k2400_setup_cmds "VOLT" 2 (mkRat 1 10) 0).length = 6 ∧
    (k2400_setup_cmds "VOLT" 2 (mkRat 1 10) 0).getD 0 "" = "OUTP OFF" ∧
    (k2400_setup_cmds "VOLT" 2 (mkRat 1 10) 0).getD 1 "" = ":SOUR:CLE:AUTO OFF" ∧
    refersTo ((k2400_setup_cmds "VOLT" 2 (mkRat 1 10) 0).getD 2 "") "VOLT" = true ∧
    refersTo ((k2400_setup_cmds "VOLT" 2 (mkRat 1 10) 0).getD 3 "") (pyStr 2) = true ∧
    refersTo ((k2400_setup_cmds "VOLT" 2 (mkRat 1 10) 0).getD 4 "") (pyStr (mkRat 1 10)) = true ∧
    refersTo ((k2400_setup_cmds "VOLT" 2 (mkRat 1 10) 0).getD 5 "") (pyStr 0) = true ∧
    k2400_setup (constConn "") "VOLT" 2 (mkRat 1 10) 0 =
      (⟨(k2400_setup_cmds "VOLT" 2 (mkRat 1 10) 0).map Op.write, 6, 0⟩,
        Except.ok ()) ∧
    (k2614B_setup_cmds "DCVOLTS" "DCAMPS" 2 (mkRat 1 10) 0).length = 6 ∧
    (k2614B_setup_cmds "DCVOLTS" "DCAMPS" 2 (mkRat 1 10) 0).getD 0 "" =
      "smua.source.output = smua.OUTPUT_OFF" ∧
    refersTo ((k2614B_setup_cmds "DCVOLTS" "DCAMPS" 2 (mkRat 1 10) 0).getD 1 "") "DCVOLTS" = true ∧
    (k2614B_setup_cmds "DCVOLTS" "DCAMPS" 2 (mkRat 1 10) 0).getD 2 "" =
      "display.smua.measure.func = display.MEASURE_DCAMPS" ∧
    refersTo ((k2614B_setup_cmds "DCVOLTS" "DCAMPS" 2 (mkRat 1 10) 0).getD 3 "") (pyStr 2) = true ∧
    refersTo ((k2614B_setup_cmds "DCVOLTS" "DCAMPS" 2 (mkRat 1 10) 0).getD 4 "") (pyStr (mkRat 1 10)) = true ∧
    refersTo ((k2614B_setup_cmds "DCVOLTS" "DCAMPS" 2 (mkRat 1 10) 0).getD 5 "") (pyStr 0) = true ∧
    k2614B_setup (constConn "") "DCVOLTS" "DCAMPS" 2 (mkRat 1 10) 0 =
      (⟨(k2614B_setup_cmds "DCVOLTS" "DCAMPS" 2 (mkRat 1 10) 0).map Op.write, 6, 0⟩,
        Except.ok ()) :=
  C3_amended_setup_six_writes (constConn "") "VOLT" "DCVOLTS" "DCAMPS"
    2 (mkRat 1 10) 0 (fun _ _ => rfl)

/-- C4: for every successful run, the operation trace interleaves, per input
index i, the write of the i-th voltage immediately followed by the i-th
measurement query, and result element i is exactly the value parsed from
the i-th query response; this per-index correspondence holds for every
input order, so instantiating the theorem at the reversed input shows that
reversing the input reverses which set-point is applied at which step. -/
theorem C4_result_index_correspondence (conn1 conn2 : Conn) (vs cs1 cs2 : List ℚ)
    (h1 : okResult (k2400_iv_sweep conn1 vs) = some cs1)
    (h2 : okResult (k2614B_iv_sweep conn2 vs) = some cs2) :
    (∃ rs, rs.length = vs.length ∧
      (k2400_iv_sweep conn1 vs).1.trace =
        k2400_stepOps vs rs ++ [Op.write "OUTP OFF"] ∧
      ∀ j, j < vs.length →
        k2400_parse (rs.getD j "") = Except.ok (cs1.getD j 0)) ∧
    (∃ rs, rs.length = vs.length ∧
      (k2614B_iv_sweep conn2 vs).1.trace =
        Op.write "smua.source.output = smua.OUTPUT_ON" ::
          (k2614B_stepOps vs rs ++
            [Op.write "smua.source.output = smua.OUTPUT_OFF"]) ∧
      ∀ j, j < vs.length →
        k2614B_parse (rs.getD j "") = Except.ok (cs2.getD j 0)) := by
  have e1 : k2400_iv_sweep conn1 vs = ((k2400_iv_sweep conn1 vs).1, Except.ok cs1) :=
    Prod.ext rfl (okResult_some h1)
  have e2 : k2614B_iv_sweep conn2 vs = ((k2614B_iv_sweep conn2 vs).1, Except.ok cs2) :=
    Prod.ext rfl (okResult_some h2)
  obtain ⟨rs1, hlen1, hfa1, htr1, _, _⟩ := k2400_sweep_ok e1
  obtain ⟨rs2, hlen2, hfa2, htr2, _, _⟩ := k2614B_sweep_ok e2
  refine ⟨⟨rs1, hlen1, htr1, ?_⟩, ⟨rs2, hlen2, htr2, ?_⟩⟩
  · intro j hj
    exact forall2_getD rs1 cs1 hfa1 j (by rw [hlen1]; exact hj)
  · intro j hj
    exact forall2_getD rs2 cs2 hfa2 j (by rw [hlen2]; exact hj)

/-- C4 witness: concrete two-point runs against stub connections. -/
theorem C4_result_index_correspondence_witness :
    (∃ rs, rs.length = ([(1 : ℚ), 2] : List ℚ).length ∧
      (k2400_iv_sweep (scriptConn ["0.0,0.001", "0.0,0.002"]) [1, 2]).1.trace =
        k2400_stepOps [1, 2] rs ++ [Op.write "OUTP OFF"] ∧
      ∀ j, j < ([(1 : ℚ), 2] : List ℚ).length →
        k2400_parse (rs.getD j "") =
          Except.ok (([mkRat 1 1000, mkRat 1 500] : List ℚ).getD j 0)) ∧
    (∃ rs, rs.length = ([(1 : ℚ), 2] : List ℚ).length ∧
      (k2614B_iv_sweep (scriptConn ["0.001", "0.002"]) [1, 2]).1.trace =
        Op.write "smua.source.output = smua.OUTPUT_ON" ::
          (k2614B_stepOps [1, 2] rs ++
            [Op.write "smua.source.output = smua.OUTPUT_OFF"]) ∧
      ∀ j, j < ([(1 : ℚ), 2] : List ℚ).length →
        k2614B_parse (rs.getD j "") =
          Except.ok (([mkRat 1 1000, mkRat 1 500] : List ℚ).getD j 0)) :=
  C4_result_index_correspondence (scriptConn ["0.0,0.001", "0.0,0.002"])
    (scriptConn ["0.001", "0.002"]) [1, 2]
    [mkRat 1 1000, mkRat 1 500] [mkRat 1 1000, mkRat 1 500] (by decide) (by decide)

/-- C5: if every response before step i parses and the response at step i
does not parse (k2400: ValueError on a non-numeric field or IndexError on a
missing second field; k2614B: ValueError), the sweep fails with exactly that
parse error at step i and the accumulated result holds only the i values
parsed from the earlier responses — nothing from the failing response. -/
theorem C5_parse_error_partial (resps resps2 : List String) (vs vs2 : List ℚ)
    (i i2 : Nat) (e e2 : PyError)
    (hi : i < vs.length)
    (hok : ∀ j, j < i → ∃ c, k2400_parse (resps.getD j "") = Except.ok c)
    (hbad : k2400_parse (resps.getD i "") = Except.error e)
    (hi2 : i2 < vs2.length)
    (hok2 : ∀ j, j < i2 → ∃ c, k2614B_parse (resps2.getD j "") = Except.ok c)
    (hbad2 : k2614B_parse (resps2.getD i2 "") = Except.error e2) :
    (∃ ps, errResult (k2400_iv_sweep (scriptConn resps) vs) = some (e, ps) ∧
      ps.length = i ∧
      ∀ j, j < i → k2400_parse (resps.getD j "") = Except.ok (ps.getD j 0)) ∧
    (∃ ps, errResult (k2614B_iv_sweep (scriptConn resps2) vs2) = some (e2, ps) ∧
      ps.length = i2 ∧
      ∀ j, j < i2 → k2614B_parse (resps2.getD j "") = Except.ok (ps.getD j 0)) :=
  ⟨k2400_sweep_script resps vs i e hi hok hbad,
   k2614B_sweep_script resps2 vs2 i2 e2 hi2 hok2 hbad2⟩

/-- C5 witness: two-point sweeps whose second response is non-numeric. -/
theorem C5_parse_error_partial_witness :
    (∃ ps, errResult (k2400_iv_sweep (scriptConn ["0.0,0.001", "oops"]) [1, 2]) =
        some (PyError.valueError, ps) ∧
      ps.length = 1 ∧
      ∀ j, j < 1 →
        k2400_parse ((["0.0,0.001", "oops"] : List String).getD j "") =
          Except.ok (ps.getD j 0)) ∧
    (∃ ps, errResult (k2614B_iv_sweep (scriptConn ["0.001", "oops"]) [1, 2]) =
        some (PyError.valueError, ps) ∧
      ps.length = 1 ∧
      ∀ j, j < 1 →
        k2614B_parse ((["0.001", "oops"] : List String).getD j "") =
          Except.ok (ps.getD j 0)) :=
  C5_parse_error_partial ["0.0,0.001", "oops"] ["0.001", "oops"] [1, 2] [1, 2]
    1 1 PyError.valueError PyError.valueError
    (by decide)
    (by
      intro j hj
      have hj0 : j = 0 := by omega
      subst hj0
      exact ⟨mkRat 1 1000, by decide⟩)
    (by decide)
    (by decide)
    (by
      intro j hj
      have hj0 : j = 0 := by omega
      subst hj0
      exact ⟨mkRat 1 1000, by decide⟩)
    (by decide)

/-- C6: on any failing run (mid-sweep write, query or parse failure, or a
failing final write) the output-disable command never appears in the
performed-operation trace; on a successful run the disable command is the
very last operation, after the loop has covered every set-point. -/
theorem C6_no_disable_on_failure (conn1 conn2 : Conn) (vs : List ℚ) :
    (∀ r, errResult (k2400_iv_sweep conn1 vs) = some r →
      Op.write "OUTP OFF" ∉ (k2400_iv_sweep conn1 vs).1.trace) ∧
    (∀ cs, okResult (k2400_iv_sweep conn1 vs) = some cs →
      (k2400_iv_sweep conn1 vs).1.trace.getLast? = some (Op.write "OUTP OFF")) ∧
    (∀ r, errResult (k2614B_iv_sweep conn2 vs) = some r →
      Op.write "smua.source.output = smua.OUTPUT_OFF" ∉
        (k2614B_iv_sweep conn2 vs).1.trace) ∧
    (∀ cs, okResult (k2614B_iv_sweep conn2 vs) = some cs →
      (k2614B_iv_sweep conn2 vs).1.trace.getLast? =
        some (Op.write "smua.source.output = smua.OUTPUT_OFF")) := by
  refine ⟨?_, ?_, ?_, ?_⟩
  · intro r hr hmem
    have herr : k2400_iv_sweep conn1 vs =
        ((k2400_iv_sweep conn1 vs).1, Except.error r) :=
      Prod.ext rfl (errResult_some hr)
    rcases k2400_sweep_err herr _ hmem with ⟨v, hv⟩ | ⟨q, hq⟩
    · injection hv with hv
      exact volt_cmd_ne_off (pyStr v) hv.symm
    · exact Op.noConfusion hq
  · intro cs hcs
    have hok : k2400_iv_sweep conn1 vs =
        ((k2400_iv_sweep conn1 vs).1, Except.ok cs) :=
      Prod.ext rfl (okResult_some hcs)
    obtain ⟨rs, _, _, htr, _, _⟩ := k2400_sweep_ok hok
    rw [htr]
    exact List.getLast?_concat _
  · intro r hr hmem
    have herr : k2614B_iv_sweep conn2 vs =
        ((k2614B_iv_sweep conn2 vs).1, Except.error r) :=
      Prod.ext rfl (errResult_some hr)
    rcases k2614B_sweep_err herr _ hmem with hon | ⟨v, hv⟩ | ⟨q, hq⟩
    · injection hon with hon
      exact absurd hon (by decide)
    · injection hv with hv
      exact levelv_cmd_ne_off (pyStr v) hv.symm
    · exact Op.noConfusion hq
  · intro cs hcs
    have hok : k2614B_iv_sweep conn2 vs =
        ((k2614B_iv_sweep conn2 vs).1, Except.ok cs) :=
      Prod.ext rfl (okResult_some hcs)
    obtain ⟨rs, _, _, htr, _, _⟩ := k2614B_sweep_ok hok
    rw [htr]
    have hsplit : Op.write "smua.source.output = smua.OUTPUT_ON" ::
        (k2614B_stepOps vs rs ++
          [Op.write "smua.source.output = smua.OUTPUT_OFF"]) =
        (Op.write "smua.source.output = smua.OUTPUT_ON" :: k2614B_stepOps vs rs) ++
          [Op.write "smua.source.output = smua.OUTPUT_OFF"] := by
      simp
    rw [hsplit]
    exact List.getLast?_concat _

/-- C6 witness: a failing one-point run (non-numeric response) has no
disable in its trace; a successful one-point run ends with the disable. -/
theorem C6_no_disable_on_failure_witness :
    Op.write "OUTP OFF" ∉ (k2400_iv_sweep (scriptConn ["oops"]) [1]).1.trace ∧
    (k2400_iv_sweep (scriptConn ["1.0,0.5"]) [2]).1.trace.getLast? =
      some (Op.write "OUTP OFF") ∧
    Op.write "smua.source.output = smua.OUTPUT_OFF" ∉
      (k2614B_iv_sweep (scriptConn ["oops"]) [1]).1.trace ∧
    (k2614B_iv_sweep (scriptConn ["0.5"]) [2]).1.trace.getLast? =
      some (Op.write "smua.source.output = smua.OUTPUT_OFF") :=
  ⟨(C6_no_disable_on_failure (scriptConn ["oops"]) (scriptConn ["oops"]) [1]).1
      (PyError.valueError, []) (by decide),
   (C6_no_disable_on_failure (scriptConn ["1.0,0.5"]) (scriptConn ["0.5"]) [2]).2.1
      [mkRat 1 2] (by decide),
   (C6_no_disable_on_failure (scriptConn ["oops"]) (scriptConn ["oops"]) [1]).2.2.1
      (PyError.valueError, []) (by decide),
   (C6_no_disable_on_failure (scriptConn ["1.0,0.5"]) (scriptConn ["0.5"]) [2]).2.2.2
      [mkRat 1 2] (by decide)⟩

/-- C7: with configuration mode "VOLT", v_range 2, i_range 0.1, delay 0, and
sweep input [-1.0, -0.5, 0.0, 0.5, 1.0] run against stubs whose query
responses encode current = voltage/1000 (a simulated 1 kOhm resistor, the
k2400 stub replying "voltage,current" since that parser takes the second
comma-separated field, the k2614B stub replying the bare current), both
sweeps return exactly [-0.001, -0.0005, 0.0, 0.0005, 0.001] and the setups
succeed. -/
theorem C7_simulated_resistor_scenario :
    (k2400_setup (constConn "") "VOLT" 2 (mkRat 1 10) 0).2 = Except.ok () ∧
    okResult (k2400_iv_sweep
      (scriptConn ["-1.0,-0.001", "-0.5,-0.0005", "0.0,0.0", "0.5,0.0005", "1.0,0.001"])
      [-1, mkRat (-1) 2, 0, mkRat 1 2, 1]) =
      some [mkRat (-1) 1000, mkRat (-1) 2000, 0, mkRat 1 2000, mkRat 1 1000] ∧
    (k2614B_setup (constConn "") "VOLT" "DCAMPS" 2 (mkRat 1 10) 0).2 = Except.ok () ∧
    okResult (k2614B_iv_sweep
      (scriptConn ["-0.001", "-0.0005", "0.0", "0.0005", "0.001"])
      [-1, mkRat (-1) 2, 0, mkRat 1 2, 1]) =
      some [mkRat (-1) 1000, mkRat (-1) 2000, 0, mkRat 1 2000, mkRat 1 1000] :=
  ⟨rfl, by decide, rfl, by decide⟩

/-- C8: on an empty input sequence, `k2400_iv_sweep` returns an empty result
having performed exactly one write — the output disable — and no query;
`k2614B_iv_sweep` returns an empty result having performed exactly the
output enable and output disable writes and no query. -/
theorem C8_empty_sweep (conn1 conn2 : Conn)
    (h1 : ∀ n c, conn1.write n c = some ())
    (h2 : ∀ n c, conn2.write n c = some ()) :
    k2400_iv_sweep conn1 [] = (⟨[Op.write "OUTP OFF"], 1, 0⟩, Except.ok []) ∧
    k2614B_iv_sweep conn2 [] =
      (⟨[Op.write "smua.source.output = smua.OUTPUT_ON",
         Op.write "smua.source.output = smua.OUTPUT_OFF"], 2, 0⟩, Except.ok []) := by
  constructor
  · unfold k2400_iv_sweep
    have hl : k2400_loop conn1 [] St.init [] = (St.init, Except.ok []) := rfl
    rw [hl]
    dsimp only
    have hw : doWrite conn1 St.init "OUTP OFF" =
        some ⟨[Op.write "OUTP OFF"], 1, 0⟩ := by
      unfold doWrite
      rw [h1]
      rfl
    rw [hw]
  · unfold k2614B_iv_sweep
    have hon : doWrite conn2 St.init "smua.source.output = smua.OUTPUT_ON" =
        some ⟨[Op.write "smua.source.output = smua.OUTPUT_ON"], 1, 0⟩ := by
      unfold doWrite
      rw [h2]
      rfl
    rw [hon]
    dsimp only
    have hl : k2614B_loop conn2 []
        ⟨[Op.write "smua.source.output = smua.OUTPUT_ON"], 1, 0⟩ [] =
        (⟨[Op.write "smua.source.output = smua.OUTPUT_ON"], 1, 0⟩, Except.ok []) := rfl
    rw [hl]
    dsimp only
    have hoff : doWrite conn2
        ⟨[Op.write "smua.source.output = smua.OUTPUT_ON"], 1, 0⟩
        "smua.source.output = smua.OUTPUT_OFF" =
        some ⟨[Op.write "smua.source.output = smua.OUTPUT_ON",
          Op.write "smua.source.output = smua.OUTPUT_OFF"], 2, 0⟩ := by
      unfold doWrite
      rw [h2]
      rfl
    rw [hoff]

/-- C8 witness: the empty sweep against a stub connection. -/
theorem C8_empty_sweep_witness :
    k2400_iv_sweep (constConn "") [] =
      (⟨[Op.write "OUTP OFF"], 1, 0⟩, Except.ok []) ∧
    k2614B_iv_sweep (constConn "") [] =
      (⟨[Op.write "smua.source.output = smua.OUTPUT_ON",
         Op.write "smua.source.output = smua.OUTPUT_OFF"], 2, 0⟩, Except.ok []) :=
  C8_empty_sweep (constConn "") (constConn "") (fun _ _ => rfl) (fun _ _ => rfl)

/-- C9: `k2614B_setup` never uses its `mfunc` parameter — for any two values
of `mfunc`, with every other argument and the connection equal, the
procedure's behaviour and its command list are identical, and the
measurement-display-function command (the third) is the hardcoded
`MEASURE_DCAMPS` string. -/
theorem C9_mfunc_unused (conn : Conn) (sfunc mfunc mfunc2 : String)
    (v_range i_range delay : ℚ) :
    k2614B_setup conn sfunc mfunc v_range i_range delay =
      k2614B_setup conn sfunc mfunc2 v_range i_range delay ∧
    k2614B_setup_cmds sfunc mfunc v_range i_range delay =
      k2614B_setup_cmds sfunc mfunc2 v_range i_range delay ∧
    (k2614B_setup_cmds sfunc mfunc v_range i_range delay).getD 2 "" =
      "display.smua.measure.func = display.MEASURE_DCAMPS" :=
  ⟨rfl, rfl, rfl⟩

/-- C10 counterexample: the response "oops" has a single comma-separated
field, yet the sweep step fails with the float-conversion ValueError, not
with an out-of-range index access, refuting "for any step whose response
contains fewer than two comma-separated fields, the procedure fails with an
out-of-range index access". -/
theorem C10_counterexample_single_bad_field :
    (splitOnChar ',' "oops".toList).length = 1 ∧
    errResult (k2400_iv_sweep (scriptConn ["oops"]) [1]) =
      some (PyError.valueError, []) ∧
    PyError.valueError ≠ PyError.indexError :=
  ⟨rfl, by decide, by decide⟩

/-- C10 (amended): `k2400_iv_sweep` parses a response by splitting it on
commas, converting every field to a number and taking the field at index 1;
when the response has fewer than two comma-separated fields AND every field
converts, parsing fails with the out-of-range index access (IndexError) —
a failing float conversion is reported first otherwise — and a sweep step
with such a response fails with IndexError, appending no value. -/
theorem C10_amended_short_response_index_error (data : String) (v : ℚ)
    (hshort : (splitOnChar ',' data.toList).length < 2)
    (hconv : ((splitOnChar ',' data.toList).map String.mk).mapM pyFloat ≠ none) :
    k2400_parse data = Except.error PyError.indexError ∧
    errResult (k2400_iv_sweep (scriptConn [data]) [v]) =
      some (PyError.indexError, []) := by
  have hp : k2400_parse data = Except.error PyError.indexError := by
    simp only [k2400_parse]
    rcases hm : ((splitOnChar ',' data.toList).map String.mk).mapM pyFloat with _ | nums
    · exact absurd hm hconv
    · dsimp only
      have hlen : nums.length < 2 := by
        have hml := mapM_length pyFloat _ nums hm
        rw [hml]
        simpa using hshort
      have hnone : nums.get? 1 = none := by
        rw [List.get?_eq_none]
        omega
      rw [hnone]
  refine ⟨hp, ?_⟩
  obtain ⟨ps, herr, hlenps, _⟩ :=
    k2400_sweep_script [data] [v] 0 PyError.indexError Nat.one_pos
      (fun j hj => absurd hj (Nat.not_lt_zero j)) hp
  have hps : ps = [] := List.length_eq_zero.mp hlenps
  subst hps
  exact herr

/-- C10 (amended) witness: a numeric single-field response. -/
theorem C10_amended_short_response_index_error_witness :
    k2400_parse "0.001" = Except.error PyError.indexError ∧
    errResult (k2400_iv_sweep (scriptConn ["0.001"]) [1]) =
      some (PyError.indexError, []) :=
  C10_amended_short_response_index_error "0.001" 1 (by decide) (by decide)
